import Mathlib

/-!
Verification development for the xgboost_decision_tree_framework toolkit.

The development shallowly embeds the categorical feature hashing core of the
repository: the HashEncoder (src/src/core/HashEncoder.ts), the
FeatureAnalyzer's cardinality analysis (src/src/core/FeatureAnalyzer.ts),
the Trainer's encoding, target transformation, One-vs-Rest dispatch and
cross-validation (src/src/core/Trainer.ts), and the Model's transform and
regression denormalization (src/src/core/Model.ts).

Conventions of the embedding:
* JavaScript numbers are modelled by the type JSNum: an exact rational
  together with the three non-finite values NaN, Infinity and -Infinity.
  The arithmetic the claims exercise (one-hot entries, normalization and
  denormalization of regression targets, fold scores) is exact on the
  rationals, mirroring the formulas of the source.
* JavaScript records (objects mapping feature names to scalars) are
  association lists; a missing key plays the role of undefined.
* The boosted-tree engine and Math.sqrt are external collaborators of the
  repository; they are taken as parameters (a fit/predict function and a
  square-root function), exactly as the spec treats them as opaque.
* File system persistence is modelled by passing the ModelMetadata value
  that Trainer.save serializes straight to the Model constructor; the JSON
  round trip of the source is the identity on this data.
-/

namespace XgbSpec

/-! ## MurmurHash3 x86 32-bit

The repository hashes normalized category strings with the murmurhash3js
dependency, an implementation of the published MurmurHash3 x86 32-bit
algorithm (the spec names this algorithm explicitly).  The definitions
below follow that algorithm with all intermediate words reduced modulo
2^32, matching the coercions the JavaScript bitwise operators perform. -/

/-- Truncation to a 32-bit word. -/
def mask32 (x : Nat) : Nat := x % 4294967296

/-- 32-bit modular multiplication. -/
def mul32 (m n : Nat) : Nat := mask32 (m * n)

/-- 32-bit left rotation of a word already below 2^32. -/
def rotl32 (m n : Nat) : Nat :=
  mask32 (m <<< n) ||| (mask32 m >>> (32 - n))

/-- The final avalanche mix of MurmurHash3 x86 32-bit. -/
def fmix32 (h0 : Nat) : Nat :=
  let h1 := h0 ^^^ (h0 >>> 16)
  let h2 := mul32 h1 0x85ebca6b
  let h3 := h2 ^^^ (h2 >>> 13)
  let h4 := mul32 h3 0xc2b2ae35
  h4 ^^^ (h4 >>> 16)

/-- Mixing of one 32-bit message word. -/
def murmurK1 (k0 : Nat) : Nat :=
  mul32 (rotl32 (mul32 k0 0xcc9e2d51) 15) 0x1b873593

/-- Incorporation of one full 4-byte block into the running state. -/
def murmurBlock (h1 k0 : Nat) : Nat :=
  mask32 (mul32 (rotl32 (h1 ^^^ murmurK1 k0) 13) 5 + 0xe6546b64)

/-- Main loop of MurmurHash3 x86 32-bit: consume 4-byte blocks, then mix
    the remaining 1 to 3 tail bytes. -/
def murmurGo (h1 : Nat) : List Nat → Nat
  | b0 :: b1 :: b2 :: b3 :: rest =>
      murmurGo (murmurBlock h1 (b0 ||| (b1 <<< 8) ||| (b2 <<< 16) ||| (b3 <<< 24))) rest
  | [b0, b1, b2] => h1 ^^^ murmurK1 (b0 ||| (b1 <<< 8) ||| (b2 <<< 16))
  | [b0, b1] => h1 ^^^ murmurK1 (b0 ||| (b1 <<< 8))
  | [b0] => h1 ^^^ murmurK1 b0
  | [] => h1

/-- MurmurHash3 x86 32-bit of a byte sequence with the given seed.  The
    JavaScript library returns the digest as an unsigned 32-bit integer,
    so the Math.abs the encoder applies afterwards is the identity. -/
def murmur3x86_32 (key : List Nat) (seed : Nat) : Nat :=
  fmix32 (murmurGo (mask32 seed) key ^^^ mask32 key.length)

/-- Byte sequence of a string as murmurhash3js reads it: each UTF-16 code
    unit masked to its low byte.  All strings the encoder hashes here are
    ASCII, where this agrees with the UTF-8 bytes. -/
def strBytes (s : String) : List Nat := s.data.map (fun c => c.toNat % 256)

/-! ## JavaScript scalar values -/

/-- A JavaScript number: an exact finite rational or one of the three
    non-finite values. -/
inductive JSNum where
  | num (q : ℚ)
  | inf
  | negInf
  | nan
deriving DecidableEq, Repr

/-- A JavaScript scalar as it occurs in a data record: string, number,
    boolean or null.  The absent case (undefined / missing key) is
    represented by Option. -/
inductive JSValue where
  | str (s : String)
  | number (n : JSNum)
  | boolean (b : Bool)
  | null
deriving DecidableEq, Repr

/-- JS number-to-string conversion.  Exact on integers (the numeric
    category values the datasets use); a non-integral rational is rendered
    through the Rat printer, whereas JS prints a decimal expansion - no
    claim evaluates the conversion there, and every property proved about
    hashing holds for an arbitrary rendered string. -/
def jsNumToString (n : JSNum) : String :=
  match n with
  | .nan => "NaN"
  | .inf => "Infinity"
  | .negInf => "-Infinity"
  | .num q => if q.den = 1 then toString q.num else toString q

/-- The String(value) conversion of JavaScript on a defined scalar, plus
    the undefined case. -/
def jsString (v : Option JSValue) : String :=
  match v with
  | none => "undefined"
  | some .null => "null"
  | some (.str s) => s
  | some (.number n) => jsNumToString n
  | some (.boolean b) => if b then "true" else "false"

/-! ## HashEncoder (src/src/core/HashEncoder.ts) -/

/-- Configuration of a HashEncoder; immutable once constructed. -/
structure HashEncoderConfig where
  bucketCount : Nat
  hashSeed : Nat
  featureName : String
deriving DecidableEq, Repr

/-- Whitespace trimming from both ends of a string, as the JavaScript
    trim() the encoder and the numeric conversions apply. -/
def jsTrim (s : String) : String :=
  ⟨((s.data.dropWhile Char.isWhitespace).reverse.dropWhile Char.isWhitespace).reverse⟩

/-- HashEncoder.normalizeValue: canonical string of an input value.
    null and undefined collapse to a sentinel, booleans and the
    non-finite numbers get sentinels of their own, other numbers print
    as decimal strings, and strings are trimmed with the empty result
    mapped to a sentinel. -/
def normalizeValue (v : Option JSValue) : String :=
  match v with
  | none => "__NULL__"
  | some .null => "__NULL__"
  | some (.boolean b) => if b then "__TRUE__" else "__FALSE__"
  | some (.number .nan) => "__NaN__"
  | some (.number .inf) => "__INFINITY__"
  | some (.number .negInf) => "__NEGATIVE_INFINITY__"
  | some (.number (.num q)) => jsNumToString (.num q)
  | some (.str s) =>
      let t := jsTrim s
      if t.length = 0 then "__EMPTY__" else t

/-- Dense one-hot vector of length n with the single 1.0 at index i. -/
def oneHot (n i : Nat) : List JSNum :=
  (List.range n).map (fun j => if j = i then JSNum.num 1 else JSNum.num 0)

/-- Bucket index of a value: hash of the normalized string, reduced
    modulo the bucket count (the digest is already non-negative, so
    Math.abs does not act). -/
def bucketIndex (cfg : HashEncoderConfig) (v : Option JSValue) : Nat :=
  murmur3x86_32 (strBytes (normalizeValue v)) cfg.hashSeed % cfg.bucketCount

/-- HashEncoder.encode: sparse one-hot vector with the 1.0 at the hashed
    bucket. -/
def encode (cfg : HashEncoderConfig) (v : Option JSValue) : List JSNum :=
  oneHot cfg.bucketCount (bucketIndex cfg v)

/-- HashEncoder.suggestBucketCount: 1 for at most one unique value, the
    square for up to 1000, twenty times the count beyond. -/
def suggestBucketCount (uniqueValues : Nat) : Nat :=
  if uniqueValues ≤ 1 then 1
  else if uniqueValues ≤ 1000 then uniqueValues * uniqueValues
  else 20 * uniqueValues

/-! ## JavaScript numeric coercion of strings

Model.transform coerces numeric-feature strings with Number(), the
Trainer's regression paths with parseFloat().  The definitions below
cover the decimal fragment of those conversions: optional sign, decimal
digits with an optional fraction, an optional exponent, and the
Infinity literals.  Hexadecimal, octal and binary literals of Number()
are outside the modelled fragment (no feature of the analysed datasets
uses them); such strings land in the NaN case here. -/

/-- Value of a digit sequence read in base 10. -/
def digitsVal (ds : List Char) : Nat :=
  ds.foldl (fun a c => 10 * a + (c.toNat - 48)) 0

/-- Splits an optional leading sign; true means negative. -/
def splitSign : List Char → (Bool × List Char)
  | '-' :: rest => (true, rest)
  | '+' :: rest => (false, rest)
  | cs => (false, cs)

/-- Parses the digits-with-optional-fraction mantissa, returning its
    value and the unread remainder; fails when no digit is present. -/
def parseMantissa (cs : List Char) : Option (ℚ × List Char) :=
  let ip := cs.takeWhile Char.isDigit
  let r1 := cs.dropWhile Char.isDigit
  match r1 with
  | '.' :: r2 =>
      let fp := r2.takeWhile Char.isDigit
      let r3 := r2.dropWhile Char.isDigit
      if ip.isEmpty && fp.isEmpty then none
      else some ((digitsVal ip : ℚ) + (digitsVal fp : ℚ) / (10 : ℚ) ^ fp.length, r3)
  | _ =>
      if ip.isEmpty then none
      else some ((digitsVal ip : ℚ), r1)

/-- Parses an exponent marker with sign and digits, returning the
    exponent and the unread remainder. -/
def parseExpSuffix : List Char → Option (Int × List Char)
  | c :: rest =>
      if c = 'e' ∨ c = 'E' then
        let p := splitSign rest
        let ds := p.2.takeWhile Char.isDigit
        let cs3 := p.2.dropWhile Char.isDigit
        if ds.isEmpty then none
        else some ((if p.1 then -(digitsVal ds : Int) else (digitsVal ds : Int)), cs3)
      else none
  | [] => none

/-- Whether the first list occurs at the head of the second. -/
def leadsWith : List Char → List Char → Bool
  | [], _ => true
  | _ :: _, [] => false
  | p :: ps, c :: cs => p = c && leadsWith ps cs

/-- The Number() conversion on a string: trimmed, empty maps to 0, the
    Infinity literals to the infinities, a fully consumed decimal
    numeral to its value, and everything else to NaN. -/
def jsStringToNumber (s : String) : JSNum :=
  let t := jsTrim s
  if t.length = 0 then .num 0
  else
    let p := splitSign t.data
    if p.2 = ("Infinity").data then (if p.1 then .negInf else .inf)
    else
      match parseMantissa p.2 with
      | none => .nan
      | some (m, rest) =>
          match rest with
          | [] => .num (if p.1 then -m else m)
          | _ =>
              match parseExpSuffix rest with
              | some (e, []) =>
                  .num (if p.1 then -(m * (10 : ℚ) ^ e) else m * (10 : ℚ) ^ e)
              | _ => .nan

/-- The parseFloat() conversion on a string: longest valid numeral
    taken from the front after trimming leading whitespace, NaN when no
    numeral starts the string. -/
def jsParseFloat (s : String) : JSNum :=
  let cs := s.data.dropWhile Char.isWhitespace
  let p := splitSign cs
  if leadsWith ("Infinity").data p.2 then (if p.1 then .negInf else .inf)
  else
    match parseMantissa p.2 with
    | none => .nan
    | some (m, rest) =>
        match parseExpSuffix rest with
        | some (e, _) =>
            .num (if p.1 then -(m * (10 : ℚ) ^ e) else m * (10 : ℚ) ^ e)
        | none => .num (if p.1 then -m else m)

/-! ## Data records -/

/-- A raw data record: an association of feature names to scalar values.
    A name absent from the list is an undefined feature, as in the
    JavaScript objects the toolkit consumes. -/
abbrev RawDataRecord := List (String × JSValue)

/-! ## FeatureAnalyzer (src/src/core/FeatureAnalyzer.ts) -/

/-- The string under which the analyzer's unique-value Set registers a
    record's value for a categorical feature: null and undefined both
    register the sentinel, every other value registers its String()
    conversion - note no trimming and no boolean or non-finite
    sentinels, unlike the encoder's normalization. -/
def analyzerValueString (v : Option JSValue) : String :=
  match v with
  | none => "__NULL__"
  | some .null => "__NULL__"
  | some w => jsString (some w)

/-- Number of distinct strings the analyzer's Set collects over the
    column of a categorical feature. -/
def categoricalUniqueCount (data : List RawDataRecord) (f : String) : Nat :=
  ((data.map (fun r => analyzerValueString (List.lookup f r))).dedup).length

/-- FeatureAnalyzer.calculateBucketCount: the PRD sizing rule with no
    special case for counts below 2. -/
def calculateBucketCount (k : Nat) : Nat :=
  if k ≤ 1000 then k * k else 20 * k

/-- Per-feature result of the analyzer's categorical scan. -/
structure FeatureSpec where
  k : Nat
  bucketCount : Nat
deriving DecidableEq, Repr

/-- The spec record the analyzer produces for one categorical feature. -/
def analyzeCategoricalFeature (data : List RawDataRecord) (f : String) : FeatureSpec :=
  let k := categoricalUniqueCount data f
  ⟨k, calculateBucketCount k⟩

/-- Insertion of a string into a lexicographically sorted list. -/
def insertSorted (s : String) : List String → List String
  | [] => [s]
  | t :: rest => if s ≤ t then s :: t :: rest else t :: insertSorted s rest

/-- Lexicographic insertion sort, the order Array.sort() applies to the
    class label strings. -/
def sortStrings : List String → List String
  | [] => []
  | s :: rest => insertSorted s (sortStrings rest)

/-- The defined (neither null nor undefined) target values of a dataset,
    as the strings the analyzer's Set collects. -/
def targetClassStrings (data : List RawDataRecord) (target : String) : List String :=
  data.filterMap (fun r =>
    match List.lookup target r with
    | none => none
    | some JSValue.null => none
    | some v => some (analyzerValueString (some v)))

/-- FeatureAnalyzer.analyzeTargetClasses: the sorted distinct class
    labels of the target column. -/
def analyzeTargetClasses (data : List RawDataRecord) (target : String) : List String :=
  sortStrings (targetClassStrings data target).dedup

/-! ## Trainer (src/src/core/Trainer.ts): encoding and targets -/

/-- Task type of a training run. -/
inductive TaskType where
  | classification
  | regression
deriving DecidableEq, Repr

/-- The encoder table loadRaw builds: one HashEncoder per categorical
    feature, with the bucket count from the analysis and the fixed seed
    42.  The JavaScript Map keys the encoders by feature name, one entry
    per name; the association list below realises the same lookup
    function. -/
def buildEncoders (data : List RawDataRecord) (categoricalFeatures : List String) :
    List (String × HashEncoderConfig) :=
  categoricalFeatures.dedup.map (fun f =>
    (f, ⟨(analyzeCategoricalFeature data f).bucketCount, 42, f⟩))

/-- Trainer.transformRecords' numeric-feature coercion: a number passes
    through (including NaN and the infinities), anything else - strings
    included - degrades to 0. -/
def trainerNumeric (v : Option JSValue) : JSNum :=
  match v with
  | some (.number n) => n
  | _ => .num 0

/-- Trainer.transformRecords on a single record: the concatenation of
    each categorical feature's full encoded vector, in declared order,
    followed by each numeric feature's coerced value, in declared
    order.  A feature without an encoder contributes nothing. -/
def transformRecord (encoders : List (String × HashEncoderConfig))
    (categoricalFeatures numericFeatures : List String) (r : RawDataRecord) : List JSNum :=
  (categoricalFeatures.map (fun f =>
      match List.lookup f encoders with
      | some cfg => encode cfg (List.lookup f r)
      | none => [])).flatten
  ++ numericFeatures.map (fun f => trainerNumeric (List.lookup f r))

/-- Trainer.transformTargets for classification: each record's target is
    converted with String() and looked up in the sorted class list; an
    absent label is the UnknownClass failure. -/
def transformTargetsClassification (classes : List String) (target : String)
    (records : List RawDataRecord) : Except String (List JSNum) :=
  records.mapM (fun r =>
    let tv := jsString (List.lookup target r)
    match classes.indexOf? tv with
    | some i => Except.ok (JSNum.num i)
    | none => Except.error ("Unknown class: " ++ tv))

/-- Normalization of one finite regression target against the stored
    bounds; the non-finite numbers propagate through the JavaScript
    floating subtraction and division by the positive finite range. -/
def normalizeTarget (mn mx : ℚ) (v : JSNum) : JSNum :=
  match v with
  | .num q => .num ((q - mn) / (mx - mn))
  | .nan => .nan
  | .inf => .inf
  | .negInf => .negInf

/-- The numeric coercion transformTargets applies to one regression
    target: numbers pass, strings go through parseFloat with NaN a hard
    failure, any other type is a hard failure. -/
def regressionTargetNum (v : Option JSValue) : Except String JSNum :=
  match v with
  | some (.number n) => Except.ok n
  | some (.str s) =>
      match jsParseFloat s with
      | .nan => Except.error ("Invalid numeric target value: " ++ s)
      | n => Except.ok n
  | _ => Except.error ("Target value must be numeric for regression")

/-- Trainer.transformTargets for regression: with a zero range every
    record maps to 0.5 outright; otherwise each target is coerced and
    normalized to (value - min) / (max - min). -/
def transformTargetsRegression (mn mx : ℚ) (target : String)
    (records : List RawDataRecord) : Except String (List JSNum) :=
  if mx - mn = 0 then Except.ok (records.map (fun _ => JSNum.num (1 / 2)))
  else
    records.mapM (fun r => (regressionTargetNum (List.lookup target r)).map
      (normalizeTarget mn mx))

/-- Trainer.transformTargets, dispatching on the task type; regression
    requires the normalization bounds to be set. -/
def transformTargets (taskType : TaskType) (classes : List String)
    (norm : Option (ℚ × ℚ)) (target : String) (records : List RawDataRecord) :
    Except String (List JSNum) :=
  match taskType with
  | .classification => transformTargetsClassification classes target records
  | .regression =>
      match norm with
      | none => Except.error ("Target normalization parameters not set for regression")
      | some (mn, mx) => transformTargetsRegression mn mx target records

/-! ## Trainer: split and shuffle -/

/-- Exchange of the elements at two valid positions of a list. -/
def swapAt (l : List α) (i j : Nat) : List α :=
  match l[i]?, l[j]? with
  | some a, some b => (l.set i b).set j a
  | _, _ => l

/-- The in-place shuffle of splitData, with the random draws made
    explicit: the k-th entry of choices is the index j drawn when the
    loop counter i stands at length - 1 - k. -/
def splitShuffle (data : List α) (choices : List Nat) : List α :=
  choices.enum.foldl (fun acc p => swapAt acc (data.length - 1 - p.1) p.2) data

/-- Trainer.splitData: shuffle a copy when enabled, then cut at
    floor(length * (1 - testRatio)).  The stored dataset itself is never
    reordered; only the returned copy is. -/
def splitData (data : List α) (testRatio : ℚ) (doShuffle : Bool) (choices : List Nat) :
    List α × List α :=
  let shuffled := if doShuffle then splitShuffle data choices else data
  let splitIndex := (((data.length : ℚ) * (1 - testRatio)).floor).toNat
  (shuffled.take splitIndex, shuffled.drop splitIndex)

/-! ## Trainer: One-vs-Rest dispatch -/

/-- A fitted boosted-tree model, recorded as the engine receives it: the
    resolved objective and the training matrix and labels passed to
    fit().  The engine itself is the opaque collaborator of the spec. -/
structure FittedModel where
  objective : String
  trainX : List (List JSNum)
  trainY : List JSNum
deriving DecidableEq, Repr

/-- Whether the configured objective string starts with the multi:
    marker; an unset objective does not. -/
def objectiveIsMulti (objective : Option String) : Bool :=
  match objective with
  | some o => leadsWith ("multi:").data o.data
  | none => false

/-- Trainer.shouldUseOneVsRest: never for regression, otherwise exactly
    when the run is multi-class and the caller's configured objective
    does not start with the multi: marker. -/
def shouldUseOneVsRest (taskType : TaskType) (isMultiClass : Bool)
    (objective : Option String) : Bool :=
  match taskType with
  | .regression => false
  | .classification => isMultiClass && !objectiveIsMulti objective

/-- The binary-relevance labels of One-vs-Rest: 1 where the encoded
    class index equals the current class position, 0 elsewhere. -/
def binaryLabels (yTrain : List JSNum) (classIdx : Nat) : List JSNum :=
  yTrain.map (fun l => if l = JSNum.num classIdx then JSNum.num 1 else JSNum.num 0)

/-- Trainer.trainOneVsRest: one independent binary classifier per class,
    in class-list order, each fitted on the shared matrix with its
    binary-relevance labels and the objective fixed to binary logistic
    regardless of the caller's configuration. -/
def trainOneVsRest (classes : List String) (xTrain : List (List JSNum))
    (yTrain : List JSNum) : List (String × FittedModel) :=
  classes.enum.map (fun p =>
    (p.2, { objective := "binary:logistic", trainX := xTrain,
            trainY := binaryLabels yTrain p.1 }))

/-- Outcome of the fitting stage of train(). -/
structure TrainOutcome where
  isOneVsRest : Bool
  ovrModels : List (String × FittedModel)
  singleModel : Option FittedModel
deriving DecidableEq, Repr

/-- The fitting dispatch of train(): One-vs-Rest when the run is
    multi-class and shouldUseOneVsRest agrees, a single model otherwise
    (the single model's objective resolution is kept abstract through
    the resolved argument; the claims under study concern the
    One-vs-Rest branch). -/
def trainDispatch (taskType : TaskType) (isMultiClass : Bool) (objective : Option String)
    (resolved : String) (classes : List String) (xTrain : List (List JSNum))
    (yTrain : List JSNum) : TrainOutcome :=
  if isMultiClass && shouldUseOneVsRest taskType isMultiClass objective then
    { isOneVsRest := true, ovrModels := trainOneVsRest classes xTrain yTrain,
      singleModel := none }
  else
    { isOneVsRest := false, ovrModels := [],
      singleModel := some { objective := resolved, trainX := xTrain, trainY := yTrain } }

/-! ## Metadata and Model (src/src/core/Model.ts) -/

/-- One persisted encoder entry of metadata.json. -/
structure EncoderMetadata where
  bucketCount : Nat
  hashSeed : Nat
  featureName : String
  uniqueCount : Nat
deriving DecidableEq, Repr

/-- Training metrics as far as the claims touch them: the headline
    evaluation number and the cross-validation scores appended after the
    folds run. -/
structure ModelMetrics where
  accuracy : Option ℚ
  crossValidationScores : Option (List JSNum)
deriving DecidableEq, Repr

/-- The persisted model description binding feature order, encoder
    configuration, class list and regression bounds together. -/
structure ModelMetadata where
  categoricalFeatures : List String
  numericFeatures : List String
  target : String
  taskType : TaskType
  encoders : List EncoderMetadata
  classes : Option (List String)
  numClasses : Option Nat
  isOneVsRest : Bool
  targetNormalization : Option (ℚ × ℚ)
  metrics : ModelMetrics
deriving DecidableEq, Repr

/-- The metadata Trainer.save persists after a training run. -/
def trainerMetadata (categoricalFeatures numericFeatures : List String) (target : String)
    (taskType : TaskType) (encoders : List (String × HashEncoderConfig))
    (classes : List String) (outcome : TrainOutcome) (norm : Option (ℚ × ℚ))
    (metrics : ModelMetrics) : ModelMetadata :=
  { categoricalFeatures := categoricalFeatures
    numericFeatures := numericFeatures
    target := target
    taskType := taskType
    encoders := encoders.map (fun p =>
      { bucketCount := p.2.bucketCount, hashSeed := p.2.hashSeed,
        featureName := p.2.featureName, uniqueCount := 0 })
    classes := match taskType with
      | .classification => some classes
      | .regression => none
    numClasses := match taskType with
      | .classification => some classes.length
      | .regression => none
    isOneVsRest := outcome.isOneVsRest
    targetNormalization := match taskType with
      | .classification => none
      | .regression => norm
    metrics := metrics }

/-- The encoder the loaded Model holds for a feature name: the
    reconstruction of the persisted entry carrying that name (the
    constructor keys its Map by featureName, one encoder per name). -/
def metadataEncoderLookup (encs : List EncoderMetadata) (f : String) :
    Option HashEncoderConfig :=
  match encs.find? (fun e => e.featureName == f) with
  | some e => some ⟨e.bucketCount, e.hashSeed, e.featureName⟩
  | none => none

/-- Model.transform's numeric-feature coercion: a number passes through,
    a string is accepted through Number() when that does not yield NaN,
    and everything else degrades to 0 with a warning. -/
def modelNumeric (v : Option JSValue) : JSNum :=
  match v with
  | some (.number n) => n
  | some (.str s) =>
      match jsStringToNumber s with
      | .nan => .num 0
      | n => n
  | _ => .num 0

/-- The contribution of one declared categorical feature to
    Model.transform's output: the full encoded vector when its encoder
    exists, nothing (with a warning) when it does not. -/
def modelCatContribution (md : ModelMetadata) (r : RawDataRecord) (f : String) :
    List JSNum :=
  match metadataEncoderLookup md.encoders f with
  | some cfg => encode cfg (List.lookup f r)
  | none => []

/-- Model.transform: categorical features in metadata-declared order,
    each fully expanded, then numeric features in metadata-declared
    order. -/
def modelTransform (md : ModelMetadata) (r : RawDataRecord) : List JSNum :=
  (md.categoricalFeatures.map (modelCatContribution md r)).flatten
  ++ md.numericFeatures.map (fun f => modelNumeric (List.lookup f r))

/-- Model.predictRegression's denormalization of a raw tree output:
    value * (max - min) + min when the persisted range is positive, the
    raw value unchanged otherwise (zero range, or no stored bounds). -/
def predictRegression (norm : Option (ℚ × ℚ)) (normalizedValue : ℚ) : ℚ :=
  match norm with
  | some (mn, mx) =>
      if mx - mn > 0 then normalizedValue * (mx - mn) + mn else normalizedValue
  | none => normalizedValue

/-! ## Trainer: cross-validation (Trainer.performCrossValidation) -/

/-- IEEE-style addition on the modelled numbers: NaN absorbs, opposite
    infinities cancel to NaN, an infinity otherwise dominates. -/
def jsAdd : JSNum → JSNum → JSNum
  | .nan, _ => .nan
  | _, .nan => .nan
  | .inf, .negInf => .nan
  | .negInf, .inf => .nan
  | .inf, _ => .inf
  | _, .inf => .inf
  | .negInf, _ => .negInf
  | _, .negInf => .negInf
  | .num a, .num b => .num (a + b)

/-- Difference of a finite prediction and a target value. -/
def jsSubQ (a : ℚ) : JSNum → JSNum
  | .num b => .num (a - b)
  | .nan => .nan
  | .inf => .negInf
  | .negInf => .inf

/-- Square of a modelled number. -/
def jsSq : JSNum → JSNum
  | .num q => .num (q * q)
  | .nan => .nan
  | .inf => .inf
  | .negInf => .inf

/-- Division of a modelled number by a positive count. -/
def jsDivNat (x : JSNum) (n : Nat) : JSNum :=
  match x with
  | .num q => .num (q / n)
  | .nan => .nan
  | .inf => .inf
  | .negInf => .negInf

/-- The test slice of one fold: the contiguous range of the stored
    dataset starting at fold * floor(length / nFolds), running one fold
    size, with the last fold absorbing the remainder. -/
def cvFoldTest (data : List α) (nFolds fold : Nat) : List α :=
  let foldSize := data.length / nFolds
  let testStart := fold * foldSize
  let testEnd := if fold = nFolds - 1 then data.length else testStart + foldSize
  (data.drop testStart).take (testEnd - testStart)

/-- The training remainder of one fold: everything before the test slice
    followed by everything after it. -/
def cvFoldTrain (data : List α) (nFolds fold : Nat) : List α :=
  let foldSize := data.length / nFolds
  let testStart := fold * foldSize
  let testEnd := if fold = nFolds - 1 then data.length else testStart + foldSize
  data.take testStart ++ data.drop testEnd

/-- The two external collaborators cross-validation consumes: the
    boosted-tree engine (fit on a matrix and labels, then predict a
    single row) and the square root of Math.sqrt. -/
structure CvOracle where
  fitPredict : List (List JSNum) → List JSNum → List JSNum → ℚ
  sqrtFn : JSNum → JSNum

/-- The trainer state cross-validation reads: task type, sorted classes,
    stored normalization bounds, target name, encoder table and declared
    feature lists. -/
structure CvContext where
  taskType : TaskType
  classes : List String
  targetNormalization : Option (ℚ × ℚ)
  target : String
  encoders : List (String × HashEncoderConfig)
  categoricalFeatures : List String
  numericFeatures : List String

/-- The score of one fold from its predictions and test labels: fraction
    of threshold-0.5 matches for classification, root of the mean
    squared error for regression. -/
def cvScore (taskType : TaskType) (sqrtFn : JSNum → JSNum) (preds : List ℚ)
    (yTest : List JSNum) : JSNum :=
  match taskType with
  | .classification =>
      let correct := (preds.zip yTest).countP
        (fun p => JSNum.num (if p.1 > 1 / 2 then 1 else 0) == p.2)
      .num ((correct : ℚ) / (preds.length : ℚ))
  | .regression =>
      let sse := (preds.zip yTest).foldl
        (fun acc p => jsAdd acc (jsSq (jsSubQ p.1 p.2))) (.num 0)
      sqrtFn (jsDivNat sse preds.length)

/-- One fold of performCrossValidation: slice the stored dataset,
    re-encode both sides, fit a fresh temporary model on the training
    remainder and score it on the test slice. -/
def cvFold (oracle : CvOracle) (ctx : CvContext) (data : List RawDataRecord)
    (nFolds fold : Nat) : Except String JSNum := do
  let testData := cvFoldTest data nFolds fold
  let trainData := cvFoldTrain data nFolds fold
  let xTrain := trainData.map
    (transformRecord ctx.encoders ctx.categoricalFeatures ctx.numericFeatures)
  let yTrain ← transformTargets ctx.taskType ctx.classes ctx.targetNormalization
    ctx.target trainData
  let xTest := testData.map
    (transformRecord ctx.encoders ctx.categoricalFeatures ctx.numericFeatures)
  let yTest ← transformTargets ctx.taskType ctx.classes ctx.targetNormalization
    ctx.target testData
  let preds := xTest.map (oracle.fitPredict xTrain yTrain)
  pure (cvScore ctx.taskType oracle.sqrtFn preds yTest)

/-- Trainer.performCrossValidation: the k fold scores, computed over the
    stored dataset in its load order, appended to the training metrics
    as crossValidationScores.  A failing fold aborts the whole run. -/
def performCrossValidation (oracle : CvOracle) (ctx : CvContext)
    (data : List RawDataRecord) (nFolds : Nat) (metrics0 : ModelMetrics) :
    Except String ModelMetrics := do
  let scores ← (List.range nFolds).mapM (cvFold oracle ctx data nFolds)
  pure { metrics0 with crossValidationScores := some scores }

/-! ## Reference definitions and concrete instances used by the theorems -/

/-- The unique-value count described by the specification: distinct
    strings under HashEncoder's own normalization (stated from the
    spec's words, for comparison with the analyzer's actual count). -/
def specNormalizedUniqueCount (data : List RawDataRecord) (f : String) : Nat :=
  ((data.map (fun r => normalizeValue (List.lookup f r))).dedup).length

/-- Two records whose values for feature f differ only by surrounding
    whitespace. -/
def dataC3 : List RawDataRecord :=
  [[(("f"), JSValue.str (" test "))], [(("f"), JSValue.str ("test"))]]

/-- The counterexample configuration for C8: a single bucket, where
    every value encodes to the same vector. -/
def cfgOne : HashEncoderConfig := ⟨1, 42, ("flag")⟩

/-- A representative configuration on which the distinctness half of the
    normalization property does hold. -/
def cfgHundred : HashEncoderConfig := ⟨100, 42, ("feature")⟩

/-- Metadata of a loaded model whose persisted encoder list carries one
    entry per declared categorical feature, each named after its
    feature, as Trainer.save writes it; bucket counts and seeds are
    arbitrary functions of the feature name. -/
def mkAlignedMetadata (cats nums : List String) (bc seed : String → Nat) : ModelMetadata :=
  { categoricalFeatures := cats
    numericFeatures := nums
    target := ("target")
    taskType := TaskType.classification
    encoders := cats.map (fun f =>
      { bucketCount := bc f, hashSeed := seed f, featureName := f, uniqueCount := 0 })
    classes := none
    numClasses := none
    isOneVsRest := false
    targetNormalization := none
    metrics := { accuracy := none, crossValidationScores := none } }

/-- A loaded model with a single categorical feature of four buckets and
    no numeric features. -/
def mdC2 : ModelMetadata := mkAlignedMetadata [("color")] [] (fun _ => 4) (fun _ => 42)

/-- Safety condition on a numeric feature value under which the Trainer
    and the Model coerce it identically: anything except a string that
    Number() converts to a non-zero number. -/
def numericSafe (v : Option JSValue) : Prop :=
  match v with
  | some (JSValue.str s) => jsStringToNumber s = JSNum.nan ∨ jsStringToNumber s = JSNum.num 0
  | _ => True

/-- A two-record training set for a model with the single numeric
    feature price, whose first record carries the price as the numeric
    string 50. -/
def trainDataC1 : List RawDataRecord :=
  [[(("price"), JSValue.str ("50")), (("y"), JSValue.str ("a"))],
   [(("price"), JSValue.number (JSNum.num 1)), (("y"), JSValue.str ("b"))]]

/-- The first training record of trainDataC1. -/
def recC1 : RawDataRecord := [(("price"), JSValue.str ("50")), (("y"), JSValue.str ("a"))]

/-- The fitting outcome of training on trainDataC1 (a binary single
    model; its contents do not influence feature transformation). -/
def outcomeC1 : TrainOutcome :=
  trainDispatch TaskType.classification false (some ("binary:logistic")) ("binary:logistic")
    [("a"), ("b")]
    (trainDataC1.map (transformRecord (buildEncoders trainDataC1 []) [] [("price")]))
    ((transformTargetsClassification [("a"), ("b")] ("y") trainDataC1).toOption.getD [])

/-- The metadata Trainer.save persists after the trainDataC1 run. -/
def mdC1 : ModelMetadata :=
  trainerMetadata [] [("price")] ("y") TaskType.classification
    (buildEncoders trainDataC1 []) [("a"), ("b")] outcomeC1 none
    { accuracy := none, crossValidationScores := none }

/-- A four-class training set for the One-vs-Rest witness. -/
def dataC5 : List RawDataRecord :=
  [[(("y"), JSValue.str ("a"))], [(("y"), JSValue.str ("b"))],
   [(("y"), JSValue.str ("c"))], [(("y"), JSValue.str ("d"))]]

/-- A four-record dataset of distinct rows for the cross-validation
    counterexample. -/
def dataC6 : List RawDataRecord :=
  [[(("i"), JSValue.number (JSNum.num 1))], [(("i"), JSValue.number (JSNum.num 2))],
   [(("i"), JSValue.number (JSNum.num 3))], [(("i"), JSValue.number (JSNum.num 4))]]

/-! ## Helper lemmas -/

theorem oneHot_length (n i : Nat) : (oneHot n i).length = n := by
  simp [oneHot]

theorem oneHot_count_of_ge (n i : Nat) (h : n ≤ i) :
    (oneHot n i).count (JSNum.num 1) = 0 := by
  induction n with
  | zero => rfl
  | succ m ih =>
      have hm : m ≤ i := Nat.le_of_succ_le h
      have hne : m ≠ i := by omega
      simp only [oneHot, List.range_succ, List.map_append, List.count_append] at *
      simp [hne, ih hm, List.count_cons]

theorem oneHot_count (n i : Nat) (h : i < n) :
    (oneHot n i).count (JSNum.num 1) = 1 := by
  induction n with
  | zero => omega
  | succ m ih =>
      by_cases hi : i < m
      · have := ih hi
        have hne : m ≠ i := by omega
        simp only [oneHot, List.range_succ, List.map_append, List.count_append] at *
        simp [hne, this, List.count_cons]
      · have hmi : m = i := by omega
        subst hmi
        have h0 := oneHot_count_of_ge m m (Nat.le_refl m)
        simp only [oneHot, List.range_succ, List.map_append, List.count_append] at *
        simp [h0, List.count_cons]

theorem oneHot_mem (n i : Nat) :
    ∀ x ∈ oneHot n i, x = JSNum.num 1 ∨ x = JSNum.num 0 := by
  intro x hx
  simp only [oneHot, List.mem_map] at hx
  obtain ⟨j, -, hj⟩ := hx
  by_cases hji : j = i
  · left; rw [← hj]; simp [hji]
  · right; rw [← hj]; simp [hji]

theorem encode_congr (cfg : HashEncoderConfig) (v w : Option JSValue)
    (h : normalizeValue v = normalizeValue w) : encode cfg v = encode cfg w := by
  unfold encode bucketIndex
  rw [h]

/-! ## C4: the one-hot invariant of encode -/

/-- C4: for every HashEncoder with a positive bucket count and every
    input value, encode returns a vector of length exactly bucketCount
    with exactly one entry equal to 1.0 and every other entry 0.0. -/
theorem C4_encode_one_hot (cfg : HashEncoderConfig) (v : Option JSValue)
    (h : 0 < cfg.bucketCount) :
    (encode cfg v).length = cfg.bucketCount ∧
    (encode cfg v).count (JSNum.num 1) = 1 ∧
    ∀ x ∈ encode cfg v, x = JSNum.num 1 ∨ x = JSNum.num 0 := by
  refine ⟨oneHot_length _ _, ?_, oneHot_mem _ _⟩
  exact oneHot_count _ _ (Nat.mod_lt _ h)

/-- Witness for C4 at bucket count 10, seed 42, input blue. -/
theorem C4_witness :
    0 < (⟨10, 42, ("color")⟩ : HashEncoderConfig).bucketCount ∧
    ((encode ⟨10, 42, ("color")⟩ (some (JSValue.str ("blue")))).length =
        (⟨10, 42, ("color")⟩ : HashEncoderConfig).bucketCount ∧
      (encode ⟨10, 42, ("color")⟩ (some (JSValue.str ("blue")))).count (JSNum.num 1) = 1 ∧
      ∀ x ∈ encode ⟨10, 42, ("color")⟩ (some (JSValue.str ("blue"))),
        x = JSNum.num 1 ∨ x = JSNum.num 0) :=
  ⟨by decide, C4_encode_one_hot ⟨10, 42, ("color")⟩ (some (JSValue.str ("blue"))) (by decide)⟩

/-! ## C8: normalization equivalences and distinctness -/

/-- C8 counterexample: with bucketCount 1 (any seed would do) the claim
    fails - encode(true) equals encode(false), both being the single
    possible vector, so the inequalities do not hold for every positive
    bucket count. -/
theorem C8_counterexample :
    encode cfgOne (some (JSValue.boolean true)) =
      encode cfgOne (some (JSValue.boolean false)) := by decide

/-- C8 amended: the normalization equalities hold for every
    configuration, while the inequalities hold whenever the sentinel
    strings land in different buckets - as they do at bucket count 100
    with the toolkit's seed 42, computed through the embedded
    MurmurHash3. -/
theorem C8_amended :
    (∀ cfg : HashEncoderConfig,
      encode cfg (some (JSValue.str (" test "))) = encode cfg (some (JSValue.str ("test"))) ∧
      encode cfg (some JSValue.null) = encode cfg none) ∧
    encode cfgHundred (some (JSValue.boolean true)) ≠
      encode cfgHundred (some (JSValue.boolean false)) ∧
    encode cfgHundred (some (JSValue.number JSNum.nan)) ≠
      encode cfgHundred (some (JSValue.number JSNum.inf)) ∧
    encode cfgHundred (some (JSValue.number JSNum.nan)) ≠
      encode cfgHundred (some (JSValue.number JSNum.negInf)) ∧
    encode cfgHundred (some (JSValue.number JSNum.inf)) ≠
      encode cfgHundred (some (JSValue.number JSNum.negInf)) := by
  refine ⟨fun cfg => ⟨encode_congr cfg _ _ (by decide), encode_congr cfg _ _ rfl⟩,
    ?_, ?_, ?_, ?_⟩ <;> decide

/-! ## C9: the sizing rule -/

/-- C9: suggestBucketCount squares counts between 2 and 1000, scales by
    20 beyond 1000 and returns 1 for counts 0 and 1; the analyzer's
    bucket count for a categorical feature of a non-empty dataset obeys
    the same rule. -/
theorem C9_sizing_rule :
    suggestBucketCount 500 = 250000 ∧ suggestBucketCount 1000 = 1000000 ∧
    suggestBucketCount 1001 = 20020 ∧ suggestBucketCount 0 = 1 ∧
    suggestBucketCount 1 = 1 ∧
    (∀ k, 2 ≤ k → k ≤ 1000 → suggestBucketCount k = k * k) ∧
    (∀ k, 1000 < k → suggestBucketCount k = 20 * k) ∧
    (∀ (data : List RawDataRecord) (f : String), data ≠ [] →
      (analyzeCategoricalFeature data f).bucketCount =
        suggestBucketCount (categoricalUniqueCount data f)) := by
  refine ⟨by decide, by decide, by decide, by decide, by decide, ?_, ?_, ?_⟩
  · intro k h2 h1000
    unfold suggestBucketCount
    rw [if_neg (by omega), if_pos h1000]
  · intro k h1000
    unfold suggestBucketCount
    rw [if_neg (by omega), if_neg (by omega)]
  · intro data f hne
    have hk : 1 ≤ categoricalUniqueCount data f := by
      unfold categoricalUniqueCount
      match data with
      | [] => exact absurd rfl hne
      | r :: rest =>
          have : analyzerValueString (List.lookup f r) ∈
              ((r :: rest).map (fun s => analyzerValueString (List.lookup f s))).dedup := by
            rw [List.mem_dedup]
            exact List.mem_map_of_mem _ (List.mem_cons_self _ _)
          exact List.length_pos.mpr (List.ne_nil_of_mem this)
    unfold analyzeCategoricalFeature calculateBucketCount suggestBucketCount
    simp only
    rcases Nat.lt_or_ge (categoricalUniqueCount data f) 2 with h2 | h2
    · have h1 : categoricalUniqueCount data f = 1 := by omega
      rw [h1]; decide
    · rcases le_or_lt (categoricalUniqueCount data f) 1000 with hle | hgt
      · rw [if_pos hle, if_neg (show ¬categoricalUniqueCount data f ≤ 1 by omega)]
      · rw [if_neg (show ¬categoricalUniqueCount data f ≤ 1000 by omega),
          if_neg (show ¬categoricalUniqueCount data f ≤ 1 by omega)]

/-- Witness for C9 at count 7 and a two-record dataset. -/
theorem C9_witness :
    (2 ≤ 7 ∧ 7 ≤ 1000 ∧ suggestBucketCount 7 = 7 * 7) ∧
    (1000 < 2000 ∧ suggestBucketCount 2000 = 20 * 2000) ∧
    (([[(("f"), JSValue.str ("x"))]] : List RawDataRecord) ≠ [] ∧
      (analyzeCategoricalFeature [[(("f"), JSValue.str ("x"))]] ("f")).bucketCount =
        suggestBucketCount (categoricalUniqueCount [[(("f"), JSValue.str ("x"))]] ("f"))) :=
  ⟨⟨by decide, by decide, C9_sizing_rule.2.2.2.2.2.1 7 (by decide) (by decide)⟩,
   ⟨by decide, C9_sizing_rule.2.2.2.2.2.2.1 2000 (by decide)⟩,
   ⟨by decide, C9_sizing_rule.2.2.2.2.2.2.2 [[(("f"), JSValue.str ("x"))]] ("f") (by decide)⟩⟩

/-! ## C3: the analyzer's unique-value counting -/

/-- C3 counterexample: two raw values that HashEncoder normalizes to the
    same string are nevertheless counted as two distinct values by the
    analyzer, which registers String(value) without trimming. -/
theorem C3_counterexample :
    categoricalUniqueCount dataC3 ("f") = 2 ∧
    specNormalizedUniqueCount dataC3 ("f") = 1 := by decide

/-- C3 amended: the analyzer's k is the number of distinct String(value)
    representations with null and undefined collapsed to the __NULL__
    sentinel; the trimming and sentinel normalization of HashEncoder is
    not applied, so values differing only by whitespace count
    separately. -/
theorem C3_amended :
    (∀ (data : List RawDataRecord) (f : String),
      categoricalUniqueCount data f =
        (data.map (fun r => analyzerValueString (List.lookup f r))).toFinset.card) ∧
    (∀ (data : List RawDataRecord) (f : String) (r₁ r₂ : RawDataRecord),
      List.lookup f r₁ = some JSValue.null → List.lookup f r₂ = none →
      categoricalUniqueCount (r₁ :: data) f = categoricalUniqueCount (r₂ :: data) f) ∧
    (categoricalUniqueCount dataC3 ("f") = 2 ∧
      specNormalizedUniqueCount dataC3 ("f") = 1) := by
  refine ⟨?_, ?_, by decide, by decide⟩
  · intro data f
    rw [categoricalUniqueCount, List.card_toFinset]
  · intro data f r₁ r₂ h₁ h₂
    unfold categoricalUniqueCount
    simp [h₁, h₂, analyzerValueString]

/-- Witness for C3 at a one-record dataset extended by a null value and
    by a missing value. -/
theorem C3_witness :
    List.lookup ("f") ([(("f"), JSValue.null)] : RawDataRecord) = some JSValue.null ∧
    List.lookup ("f") ([] : RawDataRecord) = none ∧
    categoricalUniqueCount ([(("f"), JSValue.null)] :: dataC3) ("f") =
      categoricalUniqueCount (([] : RawDataRecord) :: dataC3) ("f") :=
  ⟨by decide, by decide,
    C3_amended.2.1 dataC3 ("f") [(("f"), JSValue.null)] [] (by decide) (by decide)⟩

/-! ## C2: a record missing one categorical feature -/

theorem metadataEncoderLookup_aligned (cats : List String) (bc seed : String → Nat)
    (f : String) :
    metadataEncoderLookup
      (cats.map (fun g =>
        { bucketCount := bc g, hashSeed := seed g, featureName := g,
          uniqueCount := 0 })) f =
      if f ∈ cats then some ⟨bc f, seed f, f⟩ else none := by
  induction cats with
  | nil => simp [metadataEncoderLookup]
  | cons g rest ih =>
      by_cases hg : g = f
      · subst hg
        simp [metadataEncoderLookup, List.find?_cons_of_pos]
      · have hbeqf : (g == f) = false := by simp [hg]
        unfold metadataEncoderLookup at ih ⊢
        rw [List.map_cons]
        simp only [List.find?_cons, hbeqf]
        rw [ih]
        simp [List.mem_cons, Ne.symm hg]

set_option maxRecDepth 8000 in
/-- C2 counterexample: a loaded model with one categorical feature of
    four buckets, applied to a record omitting that feature, returns the
    full-length vector whose slot is the one-hot encoding of the
    __NULL__ sentinel - not the all-zero slot the claim requires. -/
theorem C2_counterexample :
    (modelTransform mdC2 []).length = 4 ∧
    modelTransform mdC2 [] ≠ List.replicate 4 (JSNum.num 0) := by decide

/-- C2 amended: a record omitting one declared categorical feature still
    produces a full-length vector without an error, but the omitted
    feature's slot is the one-hot encoding of the __NULL__ sentinel
    (exactly one 1.0), not an all-zero block. -/
theorem C2_amended (cats nums : List String) (bc seed : String → Nat)
    (r : RawDataRecord) (f : String) (hf : f ∈ cats)
    (hmiss : List.lookup f r = none) (hbc : ∀ g ∈ cats, 0 < bc g) :
    (modelTransform (mkAlignedMetadata cats nums bc seed) r).length =
      (cats.map bc).sum + nums.length ∧
    modelCatContribution (mkAlignedMetadata cats nums bc seed) r f =
      encode ⟨bc f, seed f, f⟩ none ∧
    (modelCatContribution (mkAlignedMetadata cats nums bc seed) r f).count
      (JSNum.num 1) = 1 := by
  have hlook : ∀ g ∈ cats,
      metadataEncoderLookup (mkAlignedMetadata cats nums bc seed).encoders g =
        some ⟨bc g, seed g, g⟩ := by
    intro g hg
    rw [show (mkAlignedMetadata cats nums bc seed).encoders =
        cats.map (fun h =>
          { bucketCount := bc h, hashSeed := seed h, featureName := h,
            uniqueCount := 0 }) from rfl]
    rw [metadataEncoderLookup_aligned cats bc seed g, if_pos hg]
  have hcontrib : modelCatContribution (mkAlignedMetadata cats nums bc seed) r f =
      encode ⟨bc f, seed f, f⟩ none := by
    unfold modelCatContribution
    rw [hlook f hf, hmiss]
  refine ⟨?_, hcontrib, ?_⟩
  · unfold modelTransform
    rw [List.length_append, List.length_flatten, List.map_map, List.length_map]
    have hcats : (mkAlignedMetadata cats nums bc seed).categoricalFeatures = cats := rfl
    have hnums : (mkAlignedMetadata cats nums bc seed).numericFeatures = nums := rfl
    rw [hcats, hnums]
    congr 1
    apply congrArg List.sum
    apply List.map_congr_left
    intro g hg
    show (modelCatContribution (mkAlignedMetadata cats nums bc seed) r g).length = bc g
    unfold modelCatContribution
    rw [hlook g hg]
    exact oneHot_length _ _
  · rw [hcontrib]
    exact oneHot_count _ _ (Nat.mod_lt _ (hbc f hf))

/-- Witness for C2 at a two-feature model and a record omitting the
    color feature. -/
theorem C2_witness :
    (("color") : String) ∈ [("color"), ("size")] ∧
    List.lookup ("color")
      ([(("size"), JSValue.str ("L")), (("price"), JSValue.number (JSNum.num 5))] :
        RawDataRecord) = none ∧
    (∀ g ∈ [("color"), ("size")], 0 < (fun _ => 4) g) ∧
    ((modelTransform
        (mkAlignedMetadata [("color"), ("size")] [("price")] (fun _ => 4) (fun _ => 42))
        [(("size"), JSValue.str ("L")), (("price"), JSValue.number (JSNum.num 5))]).length =
      (([("color"), ("size")] : List String).map (fun _ => 4)).sum +
        ([("price")] : List String).length ∧
    modelCatContribution
        (mkAlignedMetadata [("color"), ("size")] [("price")] (fun _ => 4) (fun _ => 42))
        [(("size"), JSValue.str ("L")), (("price"), JSValue.number (JSNum.num 5))]
        ("color") = encode ⟨4, 42, ("color")⟩ none ∧
    (modelCatContribution
        (mkAlignedMetadata [("color"), ("size")] [("price")] (fun _ => 4) (fun _ => 42))
        [(("size"), JSValue.str ("L")), (("price"), JSValue.number (JSNum.num 5))]
        ("color")).count (JSNum.num 1) = 1) :=
  ⟨by decide, by decide, by decide,
    C2_amended [("color"), ("size")] [("price")] (fun _ => 4) (fun _ => 42)
      [(("size"), JSValue.str ("L")), (("price"), JSValue.number (JSNum.num 5))]
      ("color") (by decide) (by decide) (by decide)⟩

/-! ## C10: explicit null and missing value coincide at inference -/

/-- C10: transforming a record that omits a categorical feature and
    transforming the same record with that feature set to an explicit
    null produce identical vectors - both encode the __NULL__
    sentinel. -/
theorem C10_null_equals_missing (cats nums : List String) (bc seed : String → Nat)
    (r : RawDataRecord) (f : String) (hmiss : List.lookup f r = none) :
    modelTransform (mkAlignedMetadata cats nums bc seed) ((f, JSValue.null) :: r) =
      modelTransform (mkAlignedMetadata cats nums bc seed) r := by
  have hlookup : ∀ g : String,
      List.lookup g ((f, JSValue.null) :: r) =
        if f = g then some JSValue.null else List.lookup g r := by
    intro g
    by_cases hfg : f = g
    · simp [List.lookup, hfg]
    · have hne : (g == f) = false := by
        simp [beq_eq_false_iff_ne, Ne.symm hfg]
      simp [List.lookup, hne, hfg]
  have hcontrib : ∀ g,
      modelCatContribution (mkAlignedMetadata cats nums bc seed) ((f, JSValue.null) :: r) g =
        modelCatContribution (mkAlignedMetadata cats nums bc seed) r g := by
    intro g
    unfold modelCatContribution
    cases henc : metadataEncoderLookup (mkAlignedMetadata cats nums bc seed).encoders g with
    | none => rfl
    | some cfg =>
        simp only
        rw [hlookup g]
        by_cases hfg : f = g
        · rw [if_pos hfg]
          subst hfg
          rw [hmiss]
          exact encode_congr cfg _ _ rfl
        · rw [if_neg hfg]
  have hnum : ∀ g,
      modelNumeric (List.lookup g ((f, JSValue.null) :: r)) =
        modelNumeric (List.lookup g r) := by
    intro g
    rw [hlookup g]
    by_cases hfg : f = g
    · rw [if_pos hfg]
      subst hfg
      rw [hmiss]
      rfl
    · rw [if_neg hfg]
  have hc : (mkAlignedMetadata cats nums bc seed).categoricalFeatures = cats := rfl
  have hn : (mkAlignedMetadata cats nums bc seed).numericFeatures = nums := rfl
  unfold modelTransform
  rw [hc, hn, List.map_congr_left (fun g _ => hcontrib g),
    List.map_congr_left (fun g _ => hnum g)]

/-- Witness for C10 at the two-feature model of the C2 witness. -/
theorem C10_witness :
    List.lookup ("color")
      ([(("size"), JSValue.str ("L"))] : RawDataRecord) = none ∧
    modelTransform
        (mkAlignedMetadata [("color"), ("size")] [("price")] (fun _ => 4) (fun _ => 42))
        ((("color"), JSValue.null) :: [(("size"), JSValue.str ("L"))]) =
      modelTransform
        (mkAlignedMetadata [("color"), ("size")] [("price")] (fun _ => 4) (fun _ => 42))
        [(("size"), JSValue.str ("L"))] :=
  ⟨by decide,
    C10_null_equals_missing [("color"), ("size")] [("price")] (fun _ => 4) (fun _ => 42)
      [(("size"), JSValue.str ("L"))] ("color") (by decide)⟩

/-! ## C7: regression target normalization and denormalization -/

/-- C7: the Trainer normalizes a finite regression target v to
    (v - min) / (max - min) when the range is non-zero and maps every
    record to 0.5 when max equals min; the Model denormalizes a raw
    prediction p to p * (max - min) + min when the persisted range is
    positive and passes p through when the range is zero; consequently
    denormalization inverts normalization whenever min < max, and 0.5
    under bounds 100 and 300 denormalizes to 200. -/
theorem C7_regression_normalization :
    (∀ (mn mx : ℚ) (t : String) (records : List RawDataRecord), mx = mn →
      transformTargetsRegression mn mx t records =
        Except.ok (records.map (fun _ => JSNum.num (1 / 2)))) ∧
    (∀ (mn mx v : ℚ) (t : String) (r : RawDataRecord), mx - mn ≠ 0 →
      List.lookup t r = some (JSValue.number (JSNum.num v)) →
      transformTargetsRegression mn mx t [r] =
        Except.ok [JSNum.num ((v - mn) / (mx - mn))]) ∧
    (∀ (mn mx p : ℚ), mx - mn > 0 →
      predictRegression (some (mn, mx)) p = p * (mx - mn) + mn) ∧
    (∀ (mn mx p : ℚ), mx - mn = 0 → predictRegression (some (mn, mx)) p = p) ∧
    (∀ (mn mx v : ℚ), mn < mx →
      predictRegression (some (mn, mx)) ((v - mn) / (mx - mn)) = v) ∧
    predictRegression (some (100, 300)) (1 / 2) = 200 := by
  refine ⟨?_, ?_, ?_, ?_, ?_, ?_⟩
  · intro mn mx t records h
    unfold transformTargetsRegression
    rw [if_pos (by rw [h, sub_self])]
  · intro mn mx v t r h hv
    unfold transformTargetsRegression
    rw [if_neg h]
    have hone : (regressionTargetNum (List.lookup t r)).map (normalizeTarget mn mx) =
        Except.ok (JSNum.num ((v - mn) / (mx - mn))) := by
      rw [hv]
      rfl
    simp only [List.mapM_cons, List.mapM_nil, hone]
    try rfl
  · intro mn mx p h
    show (if mx - mn > 0 then p * (mx - mn) + mn else p) = p * (mx - mn) + mn
    rw [if_pos h]
  · intro mn mx p h
    show (if mx - mn > 0 then p * (mx - mn) + mn else p) = p
    rw [if_neg (by rw [h]; exact lt_irrefl 0)]
  · intro mn mx v h
    have hpos : mx - mn > 0 := sub_pos.mpr h
    show (if mx - mn > 0 then (v - mn) / (mx - mn) * (mx - mn) + mn else _) = v
    rw [if_pos hpos, div_mul_cancel₀ _ (ne_of_gt hpos), sub_add_cancel]
  · show (if (300 : ℚ) - 100 > 0 then 1 / 2 * (300 - 100) + 100 else 1 / 2) = 200
    norm_num

/-- Witness for C7 at bounds 100 and 300 and target value 200. -/
theorem C7_witness :
    ((300 : ℚ) = 300 ∧
      transformTargetsRegression 300 300 ("t") [[(("t"), JSValue.number (JSNum.num 5))]] =
        Except.ok [JSNum.num (1 / 2)]) ∧
    ((300 : ℚ) - 100 ≠ 0 ∧
      List.lookup ("t")
          ([(("t"), JSValue.number (JSNum.num 200))] : RawDataRecord) =
        some (JSValue.number (JSNum.num 200)) ∧
      transformTargetsRegression 100 300 ("t")
          [[(("t"), JSValue.number (JSNum.num 200))]] =
        Except.ok [JSNum.num ((200 - 100) / (300 - 100))]) ∧
    ((300 : ℚ) - 100 > 0 ∧
      predictRegression (some (100, 300)) (1 / 2) = 1 / 2 * (300 - 100) + 100) ∧
    ((200 : ℚ) - 200 = 0 ∧ predictRegression (some (200, 200)) (3 / 4) = 3 / 4) ∧
    ((100 : ℚ) < 300 ∧
      predictRegression (some (100, 300)) ((200 - 100) / (300 - 100)) = 200) :=
  ⟨⟨rfl, C7_regression_normalization.1 300 300 ("t")
      [[(("t"), JSValue.number (JSNum.num 5))]] rfl⟩,
   ⟨by norm_num, by decide,
      C7_regression_normalization.2.1 100 300 200 ("t")
        [(("t"), JSValue.number (JSNum.num 200))] (by norm_num) (by decide)⟩,
   ⟨by norm_num, C7_regression_normalization.2.2.1 100 300 (1 / 2) (by norm_num)⟩,
   ⟨by norm_num, C7_regression_normalization.2.2.2.1 200 200 (3 / 4) (by norm_num)⟩,
   ⟨by norm_num, C7_regression_normalization.2.2.2.2.1 100 300 200 (by norm_num)⟩⟩

/-! ## C1: training-inference transform consistency -/

theorem metadataEncoderLookup_map (l : List (String × HashEncoderConfig)) (f : String)
    (hl : ∀ p ∈ l, p.2.featureName = p.1) :
    metadataEncoderLookup
      (l.map (fun p =>
        { bucketCount := p.2.bucketCount, hashSeed := p.2.hashSeed,
          featureName := p.2.featureName, uniqueCount := 0 })) f = List.lookup f l := by
  induction l with
  | nil => simp [metadataEncoderLookup, List.lookup]
  | cons p rest ih =>
      obtain ⟨k, cfg⟩ := p
      have hk : cfg.featureName = k := hl (k, cfg) (List.mem_cons_self _ _)
      have hrest : ∀ q ∈ rest, q.2.featureName = q.1 := fun q hq =>
        hl q (List.mem_cons_of_mem _ hq)
      by_cases hkf : k = f
      · subst hkf
        unfold metadataEncoderLookup
        rw [List.map_cons]
        have hbeq : (cfg.featureName == k) = true := by rw [hk]; simp
        simp only [List.find?_cons, hbeq]
        have hbeq2 : (k == k) = true := by simp
        simp only [List.lookup, hbeq2]
      · have hbeq : (cfg.featureName == f) = false := by rw [hk]; simp [hkf]
        have hbeq2 : (f == k) = false := by simp [Ne.symm hkf]
        unfold metadataEncoderLookup at ih ⊢
        rw [List.map_cons]
        simp only [List.find?_cons, hbeq]
        rw [ih hrest]
        simp only [List.lookup, hbeq2]

theorem modelNumeric_eq_trainer (v : Option JSValue) (h : numericSafe v) :
    modelNumeric v = trainerNumeric v := by
  match v with
  | none => rfl
  | some (JSValue.number n) => rfl
  | some JSValue.null => rfl
  | some (JSValue.boolean b) => rfl
  | some (JSValue.str s) =>
      unfold numericSafe at h
      rcases h with h | h <;> simp [modelNumeric, trainerNumeric, h]

set_option maxRecDepth 8000 in
/-- C1 counterexample: a numeric feature whose raw value is the numeric
    string 50 is transformed to 0 by the Trainer but to 50 by the loaded
    Model, so the round-trip vectors differ on the very records used for
    training. -/
theorem C1_counterexample :
    modelTransform mdC1 recC1 ≠
      transformRecord (buildEncoders trainDataC1 []) [] [("price")] recC1 := by decide

/-- C1 amended: the loaded Model transforms a training record exactly as
    the Trainer did provided no numeric feature of the record carries a
    numeric-string value (a string Number() converts to a non-zero
    number); on such strings the Trainer produces 0 and the Model the
    parsed number. -/
theorem C1_amended (data : List RawDataRecord) (cats nums : List String)
    (target : String) (tt : TaskType) (classes : List String) (outcome : TrainOutcome)
    (norm : Option (ℚ × ℚ)) (metrics : ModelMetrics) (r : RawDataRecord)
    (hsafe : ∀ f ∈ nums, numericSafe (List.lookup f r)) :
    modelTransform
      (trainerMetadata cats nums target tt (buildEncoders data cats) classes outcome
        norm metrics) r =
      transformRecord (buildEncoders data cats) cats nums r := by
  have hl : ∀ p ∈ buildEncoders data cats, p.2.featureName = p.1 := by
    intro p hp
    unfold buildEncoders at hp
    obtain ⟨f, -, rfl⟩ := List.mem_map.mp hp
    rfl
  have hcat : ∀ g,
      modelCatContribution
        (trainerMetadata cats nums target tt (buildEncoders data cats) classes outcome
          norm metrics) r g =
        (match List.lookup g (buildEncoders data cats) with
          | some cfg => encode cfg (List.lookup g r)
          | none => []) := by
    intro g
    unfold modelCatContribution
    rw [show (trainerMetadata cats nums target tt (buildEncoders data cats) classes
        outcome norm metrics).encoders =
        (buildEncoders data cats).map (fun p =>
          { bucketCount := p.2.bucketCount, hashSeed := p.2.hashSeed,
            featureName := p.2.featureName, uniqueCount := 0 }) from rfl]
    rw [metadataEncoderLookup_map _ _ hl]
  unfold modelTransform transformRecord
  have hc : (trainerMetadata cats nums target tt (buildEncoders data cats) classes
      outcome norm metrics).categoricalFeatures = cats := rfl
  have hn : (trainerMetadata cats nums target tt (buildEncoders data cats) classes
      outcome norm metrics).numericFeatures = nums := rfl
  rw [hc, hn, List.map_congr_left (fun g _ => hcat g),
    List.map_congr_left (fun g hg =>
      modelNumeric_eq_trainer (List.lookup g r) (hsafe g hg))]

/-- Witness for C1 at the trainDataC1 model and a record whose price is
    an actual number. -/
theorem C1_witness :
    (∀ f ∈ [("price")], numericSafe
      (List.lookup f ([(("price"), JSValue.number (JSNum.num 3))] : RawDataRecord))) ∧
    modelTransform
      (trainerMetadata [] [("price")] ("y") TaskType.classification
        (buildEncoders trainDataC1 []) [("a"), ("b")] outcomeC1 none
        { accuracy := none, crossValidationScores := none })
      [(("price"), JSValue.number (JSNum.num 3))] =
      transformRecord (buildEncoders trainDataC1 []) [] [("price")]
        [(("price"), JSValue.number (JSNum.num 3))] :=
  ⟨by intro f hf; simp at hf; subst hf; exact trivial,
    C1_amended trainDataC1 [] [("price")] ("y") TaskType.classification
      [("a"), ("b")] outcomeC1 none { accuracy := none, crossValidationScores := none }
      [(("price"), JSValue.number (JSNum.num 3))]
      (by intro f hf; simp at hf; subst hf; exact trivial)⟩

/-! ## C5: the One-vs-Rest dispatch -/

theorem mem_insertSorted (s x : String) (l : List String) :
    x ∈ insertSorted s l ↔ x = s ∨ x ∈ l := by
  induction l with
  | nil => simp [insertSorted]
  | cons t rest ih =>
      unfold insertSorted
      by_cases h : s ≤ t
      · rw [if_pos h]
        simp [List.mem_cons]
      · rw [if_neg h]
        simp only [List.mem_cons, ih]
        tauto

theorem insertSorted_sorted (s : String) (l : List String)
    (h : l.Sorted (· ≤ ·)) : (insertSorted s l).Sorted (· ≤ ·) := by
  induction l with
  | nil => simp [insertSorted]
  | cons t rest ih =>
      rw [List.sorted_cons] at h
      obtain ⟨ht, hrest⟩ := h
      unfold insertSorted
      by_cases hst : s ≤ t
      · rw [if_pos hst, List.sorted_cons]
        refine ⟨?_, ?_⟩
        · intro x hx
          rcases List.mem_cons.mp hx with rfl | hx
          · exact hst
          · exact le_trans hst (ht x hx)
        · rw [List.sorted_cons]
          exact ⟨ht, hrest⟩
      · rw [if_neg hst, List.sorted_cons]
        refine ⟨?_, ih hrest⟩
        intro x hx
        rcases (mem_insertSorted s x rest).mp hx with rfl | hx
        · exact le_of_not_le hst
        · exact ht x hx

theorem sortStrings_sorted (l : List String) : (sortStrings l).Sorted (· ≤ ·) := by
  induction l with
  | nil => simp [sortStrings]
  | cons s rest ih => exact insertSorted_sorted s _ ih

theorem insertSorted_length (s : String) (l : List String) :
    (insertSorted s l).length = l.length + 1 := by
  induction l with
  | nil => rfl
  | cons t rest ih =>
      unfold insertSorted
      by_cases h : s ≤ t
      · rw [if_pos h]
        rfl
      · rw [if_neg h]
        simp [ih]

theorem sortStrings_length (l : List String) : (sortStrings l).length = l.length := by
  induction l with
  | nil => rfl
  | cons s rest ih =>
      unfold sortStrings
      rw [insertSorted_length, ih]
      rfl

/-- C5: a classification run whose analyzed target has more than two
    distinct labels and whose configured objective does not start with
    multi: dispatches to One-vs-Rest - one independent binary classifier
    per class in the sorted class list, each fitted on the shared matrix
    with binary-relevance labels and the binary logistic objective
    regardless of the caller's configuration - and the persisted
    metadata records isOneVsRest. -/
theorem C5_one_vs_rest (data : List RawDataRecord) (target : String)
    (objective : Option String) (resolved : String) (xTrain : List (List JSNum))
    (yTrain : List JSNum) (cats nums : List String) (norm : Option (ℚ × ℚ))
    (metrics : ModelMetrics) (encoders : List (String × HashEncoderConfig))
    (outcome : TrainOutcome)
    (houtcome : outcome = trainDispatch TaskType.classification
      (decide (2 < (analyzeTargetClasses data target).length)) objective resolved
      (analyzeTargetClasses data target) xTrain yTrain)
    (hmulti : 2 < (analyzeTargetClasses data target).length)
    (hobj : objectiveIsMulti objective = false) :
    outcome.isOneVsRest = true ∧
    outcome.ovrModels = trainOneVsRest (analyzeTargetClasses data target) xTrain yTrain ∧
    outcome.ovrModels.map Prod.fst = analyzeTargetClasses data target ∧
    outcome.ovrModels.length = (analyzeTargetClasses data target).length ∧
    (∀ m ∈ outcome.ovrModels,
      m.2.objective = ("binary:logistic") ∧ m.2.trainX = xTrain) ∧
    (∀ (y : List JSNum) (i j : Nat) (l : JSNum), y[j]? = some l →
      (binaryLabels y i)[j]? =
        some (if l = JSNum.num i then JSNum.num 1 else JSNum.num 0)) ∧
    (analyzeTargetClasses data target).Sorted (· ≤ ·) ∧
    (trainerMetadata cats nums target TaskType.classification encoders
      (analyzeTargetClasses data target) outcome norm metrics).isOneVsRest = true := by
  have hcond : (decide (2 < (analyzeTargetClasses data target).length) &&
      shouldUseOneVsRest TaskType.classification
        (decide (2 < (analyzeTargetClasses data target).length)) objective) = true := by
    unfold shouldUseOneVsRest
    rw [hobj]
    simp [hmulti]
  have hout : outcome =
      { isOneVsRest := true,
        ovrModels := trainOneVsRest (analyzeTargetClasses data target) xTrain yTrain,
        singleModel := none } := by
    rw [houtcome]
    unfold trainDispatch
    rw [if_pos hcond]
  subst hout
  refine ⟨rfl, rfl, ?_, ?_, ?_, ?_, sortStrings_sorted _, rfl⟩
  · show (List.map Prod.fst (trainOneVsRest (analyzeTargetClasses data target)
      xTrain yTrain)) = analyzeTargetClasses data target
    unfold trainOneVsRest
    rw [List.map_map]
    exact List.enum_map_snd _
  · show (trainOneVsRest (analyzeTargetClasses data target) xTrain yTrain).length =
      (analyzeTargetClasses data target).length
    unfold trainOneVsRest
    rw [List.length_map, List.enum_length]
  · intro m hm
    unfold trainOneVsRest at hm
    obtain ⟨p, -, rfl⟩ := List.mem_map.mp hm
    exact ⟨rfl, rfl⟩
  · intro y i j l hy
    unfold binaryLabels
    rw [List.getElem?_map, hy]
    rfl

/-- Witness for C5 at the four-class dataset dataC5 with a configured
    binary logistic objective. -/
theorem C5_witness :
    trainDispatch TaskType.classification
        (decide (2 < (analyzeTargetClasses dataC5 ("y")).length))
        (some ("binary:logistic")) ("binary:logistic")
        (analyzeTargetClasses dataC5 ("y")) [] [] =
      trainDispatch TaskType.classification
        (decide (2 < (analyzeTargetClasses dataC5 ("y")).length))
        (some ("binary:logistic")) ("binary:logistic")
        (analyzeTargetClasses dataC5 ("y")) [] [] ∧
    2 < (analyzeTargetClasses dataC5 ("y")).length ∧
    objectiveIsMulti (some ("binary:logistic")) = false ∧
    ((trainDispatch TaskType.classification
        (decide (2 < (analyzeTargetClasses dataC5 ("y")).length))
        (some ("binary:logistic")) ("binary:logistic")
        (analyzeTargetClasses dataC5 ("y")) [] []).isOneVsRest = true ∧
      (trainDispatch TaskType.classification
        (decide (2 < (analyzeTargetClasses dataC5 ("y")).length))
        (some ("binary:logistic")) ("binary:logistic")
        (analyzeTargetClasses dataC5 ("y")) [] []).ovrModels.length =
        (analyzeTargetClasses dataC5 ("y")).length) := by
  have hmulti : 2 < (analyzeTargetClasses dataC5 ("y")).length := by
    rw [analyzeTargetClasses, sortStrings_length]
    decide
  have happ := C5_one_vs_rest dataC5 ("y") (some ("binary:logistic"))
    ("binary:logistic") [] [] [] [] none
    { accuracy := none, crossValidationScores := none } []
    (trainDispatch TaskType.classification
      (decide (2 < (analyzeTargetClasses dataC5 ("y")).length))
      (some ("binary:logistic")) ("binary:logistic")
      (analyzeTargetClasses dataC5 ("y")) [] []) rfl hmulti (by decide)
  exact ⟨rfl, hmulti, by decide, happ.1, happ.2.2.2.1⟩

/-! ## C6: cross-validation folds -/

theorem flatten_slices (data : List RawDataRecord) (s : Nat) (k : Nat) :
    ((List.range k).map (fun i => (data.drop (i * s)).take s)).flatten =
      data.take (k * s) := by
  induction k with
  | zero => simp
  | succ m ih =>
      rw [List.range_succ, List.map_append, List.flatten_append, ih]
      simp only [List.map_cons, List.map_nil, List.flatten_cons, List.flatten_nil,
        List.append_nil]
      rw [show (m + 1) * s = m * s + s by ring, List.take_add]

/-- The contiguous fold slices cover the dataset: their concatenation in
    fold order is the dataset itself. -/
theorem cv_partition (data : List RawDataRecord) (nFolds : Nat) (h : 1 ≤ nFolds) :
    ((List.range nFolds).map (fun fold => cvFoldTest data nFolds fold)).flatten =
      data := by
  obtain ⟨m, rfl⟩ : ∃ m, nFolds = m + 1 := ⟨nFolds - 1, by omega⟩
  rw [List.range_succ, List.map_append, List.flatten_append]
  have hmid : (List.range m).map (fun fold => cvFoldTest data (m + 1) fold) =
      (List.range m).map (fun i =>
        (data.drop (i * (data.length / (m + 1)))).take (data.length / (m + 1))) := by
    apply List.map_congr_left
    intro i hi
    have him : i < m := List.mem_range.mp hi
    simp only [cvFoldTest]
    rw [if_neg (show ¬(i = m + 1 - 1) by omega)]
    congr 1
    exact Nat.add_sub_cancel_left _ _
  have hlast : cvFoldTest data (m + 1) m =
      data.drop (m * (data.length / (m + 1))) := by
    simp only [cvFoldTest]
    rw [if_pos (show m = m + 1 - 1 by omega)]
    apply List.take_of_length_le
    rw [List.length_drop]
  rw [hmid, flatten_slices]
  simp only [List.map_cons, List.map_nil, List.flatten_cons, List.flatten_nil,
    List.append_nil]
  rw [hlast]
  exact List.take_append_drop _ _

/-- Each fold's training remainder is the dataset with the test slice
    cut out in place. -/
theorem cv_fold_complement (data : List RawDataRecord) (nFolds fold : Nat)
    (h : fold < nFolds) :
    ∃ pre post, cvFoldTrain data nFolds fold = pre ++ post ∧
      data = pre ++ cvFoldTest data nFolds fold ++ post := by
  refine ⟨data.take (fold * (data.length / nFolds)),
    data.drop (if fold = nFolds - 1 then data.length
      else fold * (data.length / nFolds) + data.length / nFolds), rfl, ?_⟩
  have haux : fold * (data.length / nFolds) ≤ data.length :=
    calc fold * (data.length / nFolds)
        ≤ nFolds * (data.length / nFolds) :=
          Nat.mul_le_mul (by omega) (Nat.le_refl _)
      _ = (data.length / nFolds) * nFolds := Nat.mul_comm _ _
      _ ≤ data.length := Nat.div_mul_le_self _ _
  have hse : fold * (data.length / nFolds) ≤
      (if fold = nFolds - 1 then data.length
        else fold * (data.length / nFolds) + data.length / nFolds) := by
    split_ifs with hf
    · exact haux
    · exact Nat.le_add_right _ _
  have h4 : cvFoldTest data nFolds fold =
      (data.drop (fold * (data.length / nFolds))).take
        ((if fold = nFolds - 1 then data.length
          else fold * (data.length / nFolds) + data.length / nFolds) -
          fold * (data.length / nFolds)) := rfl
  have h3 : (data.drop (fold * (data.length / nFolds))).drop
      ((if fold = nFolds - 1 then data.length
        else fold * (data.length / nFolds) + data.length / nFolds) -
        fold * (data.length / nFolds)) =
      data.drop (if fold = nFolds - 1 then data.length
        else fold * (data.length / nFolds) + data.length / nFolds) := by
    rw [List.drop_drop]
    congr 1
    exact Nat.add_sub_cancel' hse
  rw [h4, ← h3, List.append_assoc, List.take_append_drop, List.take_append_drop]

theorem exceptMapM_ok_length {α β : Type} (f : α → Except String β) :
    ∀ (l : List α) (ys : List β), l.mapM f = Except.ok ys → ys.length = l.length := by
  intro l
  induction l with
  | nil =>
      intro ys h
      rw [← List.mapM'_eq_mapM] at h
      simp only [List.mapM'] at h
      cases h
      rfl
  | cons a rest ih =>
      intro ys h
      rw [← List.mapM'_eq_mapM] at h
      simp only [List.mapM'] at h
      cases hfa : f a with
      | error e =>
          rw [hfa] at h
          exact Except.noConfusion (show Except.error e = Except.ok ys from h)
      | ok b =>
          rw [hfa] at h
          cases hml : List.mapM' f rest with
          | error e =>
              rw [hml] at h
              exact Except.noConfusion (show Except.error e = Except.ok ys from h)
          | ok bs =>
              rw [hml] at h
              have h' : Except.ok (b :: bs) = Except.ok ys := h
              cases h'
              have := ih bs (by rw [← List.mapM'_eq_mapM]; exact hml)
              simp [this]

/-- C6 amended: cross-validation takes its k folds as contiguous slices
    of the dataset in the order it was stored at load time (splitData's
    shuffle acts on a copy and never reorders the stored dataset); the
    slices partition the dataset with the last fold absorbing the
    remainder, each fold trains on the complement of its slice, and the
    k fold scores are appended to the training metrics as
    crossValidationScores. -/
theorem C6_amended :
    (∀ (data : List RawDataRecord) (nFolds : Nat), 1 ≤ nFolds →
      ((List.range nFolds).map (fun fold => cvFoldTest data nFolds fold)).flatten =
        data) ∧
    (∀ (data : List RawDataRecord) (nFolds fold : Nat), fold < nFolds →
      ∃ pre post, cvFoldTrain data nFolds fold = pre ++ post ∧
        data = pre ++ cvFoldTest data nFolds fold ++ post) ∧
    (∀ (oracle : CvOracle) (ctx : CvContext) (data : List RawDataRecord)
        (nFolds : Nat) (m0 : ModelMetrics) (scores : List JSNum),
      (List.range nFolds).mapM (cvFold oracle ctx data nFolds) = Except.ok scores →
      performCrossValidation oracle ctx data nFolds m0 =
        Except.ok { m0 with crossValidationScores := some scores } ∧
      scores.length = nFolds) := by
  refine ⟨cv_partition, cv_fold_complement, ?_⟩
  intro oracle ctx data nFolds m0 scores h
  constructor
  · unfold performCrossValidation
    rw [h]
    rfl
  · have := exceptMapM_ok_length (cvFold oracle ctx data nFolds) (List.range nFolds)
      scores h
    rwa [List.length_range] at this

/-- C6 counterexample: in a run whose splitData shuffle reversed the
    four records, the first fold's test slice is the prefix of the
    stored dataset, not of the shuffled copy - the folds are not taken
    from the already-shuffled data. -/
theorem C6_counterexample :
    cvFoldTest dataC6 2 0 ≠ (splitShuffle dataC6 [0, 0, 0]).take 2 ∧
    cvFoldTest dataC6 2 0 = dataC6.take 2 := by decide

/-- Witness for C6 at the dataC6 dataset with two folds. -/
theorem C6_witness :
    (1 ≤ 2 ∧
      ((List.range 2).map (fun fold => cvFoldTest dataC6 2 fold)).flatten = dataC6) ∧
    (0 < 2 ∧
      ∃ pre post, cvFoldTrain dataC6 2 0 = pre ++ post ∧
        dataC6 = pre ++ cvFoldTest dataC6 2 0 ++ post) ∧
    ((List.range 0).mapM
        (cvFold ⟨fun _ _ _ => 0, fun x => x⟩
          ⟨TaskType.classification, [], none, ("y"), [], [], []⟩ dataC6 0) =
      Except.ok [] ∧
      performCrossValidation ⟨fun _ _ _ => 0, fun x => x⟩
          ⟨TaskType.classification, [], none, ("y"), [], [], []⟩ dataC6 0
          { accuracy := none, crossValidationScores := none } =
        Except.ok { accuracy := none, crossValidationScores := some [] } ∧
      ([] : List JSNum).length = 0) :=
  ⟨⟨by decide, C6_amended.1 dataC6 2 (by decide)⟩,
   ⟨by decide, C6_amended.2.1 dataC6 2 0 (by decide)⟩,
   ⟨rfl, (C6_amended.2.2 ⟨fun _ _ _ => 0, fun x => x⟩
      ⟨TaskType.classification, [], none, ("y"), [], [], []⟩ dataC6 0
      { accuracy := none, crossValidationScores := none } [] rfl).1,
    (C6_amended.2.2 ⟨fun _ _ _ => 0, fun x => x⟩
      ⟨TaskType.classification, [], none, ("y"), [], [], []⟩ dataC6 0
      { accuracy := none, crossValidationScores := none } [] rfl).2⟩⟩

end XgbSpec
